import Mathlib

/-!
Shallow embedding of the real-estate-agent-scraper delivery engine:
the stateful EmailService (services/emailService.js) together with its helpers
(utils/emailUtils.js), the two ScraperOrchestrator.removeDuplicates variants,
and the configuration values it consumes (config/config.js).

JavaScript Sets are modelled as duplicate-free lists in insertion order; the
stateful methods of EmailService become pure functions over an explicit
EmailState.  Every call to transporter.sendMail is additionally recorded in a
ghost trace (SendEvent) so that theorems can count transport calls and inspect
the message content actually handed to the transport; the trace does not
influence any computed result.
-/

namespace Scraper

/-- One scraped real-estate agent record (only the fields that the email
engine and the deduplication passes actually read). -/
structure Agent where
  name : String
  email : String
  city : String
  state : String
deriving DecidableEq

/-- Configuration values consumed by the email engine:
config.email.maxPerDay and config.email.retryAttempts in config/config.js. -/
structure EmailConfig where
  maxPerDay : Nat
  retryAttempts : Nat
deriving DecidableEq

/-- In-memory state of EmailService.  sentEmails and failedEmails model the
two JavaScript Sets as insertion-ordered duplicate-free lists; dailyCount and
lastResetDate model the daily-quota fields. -/
structure EmailState where
  sentEmails : List String
  failedEmails : List String
  dailyCount : Nat
  lastResetDate : String
deriving DecidableEq

/-- Character-level model of JavaScript String.prototype.trim. -/
def jsTrim (cs : List Char) : List Char :=
  ((cs.dropWhile Char.isWhitespace).reverse.dropWhile Char.isWhitespace).reverse

/-- Character-level model of the trim().toLowerCase() normalisation applied by
isValidEmail before the regex test. -/
def jsTrimLower (cs : List Char) : List Char :=
  (jsTrim cs).map Char.toLower

/-- Full-match semantics of the EMAIL_REGEX in utils/emailUtils.js
(start, one or more non-space-non-at, at sign, one or more non-space-non-at,
dot, one or more non-space-non-at, end): no whitespace anywhere, exactly one
at sign with a non-empty local part, and a dot strictly inside the domain. -/
def emailFormatOk (cs : List Char) : Bool :=
  cs.all (fun c => !c.isWhitespace) &&
  cs.count '@' == 1 &&
  !(cs.takeWhile (fun c => c != '@')).isEmpty &&
  (let domain := (cs.dropWhile (fun c => c != '@')).drop 1
   (List.range domain.length).any fun i =>
     domain.getD i ' ' == '.' && decide (0 < i) && decide (i + 1 < domain.length))

/-- isValidEmail from utils/emailUtils.js: a falsy (empty) value is rejected,
otherwise the regex is tested against the trimmed lower-cased string. -/
def isValidEmail (email : String) : Bool :=
  if email = "" then false
  else emailFormatOk (jsTrimLower email.toList)

/-- getFirstName from utils/emailUtils.js: falsy input yields "there",
otherwise the leading space-free run of the trimmed name, with "there" as the
fallback when that run is empty. -/
def getFirstName (fullName : String) : String :=
  if fullName = "" then "there"
  else
    let name := jsTrim fullName.toList
    let firstName := name.takeWhile (fun c => c != ' ')
    if firstName.isEmpty then "there" else String.mk firstName

/-- The fixed set of subject variants in generateSubject. -/
def subjects : List String :=
  [ "Can I build you a custom AI tool?"
  , "Free AI tool for your real estate business?"
  , "Want a custom AI solution for your agency?"
  , "AI automation for real estate agents"
  , "Custom software for your real estate business?" ]

/-- generateSubject from utils/emailUtils.js: index wraps modulo the variant
count. -/
def generateSubject (index : Nat) : String :=
  subjects.getD (index % subjects.length) ""

/-- generateEmailBody from utils/emailUtils.js (personalised fixed text). -/
def generateEmailBody (firstName : String) : String :=
  "Hey " ++ firstName ++
  ",\n\nI run an agency where we build custom AI tools and software for real estate agents.\n\nGive me your biggest problem and I'll build a solution for free.\n\nIf you like it, you pay. If you don't, send it back and we figure out how to make it better.\n\nWant to try?\n\n- Nadav\n\n---\nReply STOP to opt out"

/-- The mail options handed to transporter.sendMail (the fields a claim can
observe; the constant from-header fields are not modelled). -/
structure Message where
  recipient : String
  subject : String
  body : String
deriving DecidableEq

/-- Ghost record of one transporter.sendMail call: addressee, subject line,
attempt number and whether the transport accepted the message. -/
structure SendEvent where
  recipient : String
  subject : String
  attempt : Nat
  ok : Bool
deriving DecidableEq

/-- A transport behaviour: given the message and the (1-based) attempt number,
either a message id or an error message.  This models the opaque
nodemailer transporter. -/
def Transport : Type :=
  Message → Nat → Except String String

/-- EmailService.checkDailyLimit: reset the counter (and stored date) whenever
the observed date differs from the stored one, then compare the counter to
config.email.maxPerDay.  Returns the possibly-reset state together with the
boolean result. -/
def checkDailyLimit (today : String) (cfg : EmailConfig) (s : EmailState) :
    EmailState × Bool :=
  let s' := if today ≠ s.lastResetDate
    then { s with dailyCount := 0, lastResetDate := today } else s
  (s', decide (s'.dailyCount < cfg.maxPerDay))

/-- Recursion core of EmailService.sendEmailWithRetry.  The JavaScript code
recurses while attempt < config.email.retryAttempts; here fuel is maintained
as retryAttempts - attempt, so that fuel = 0 exactly when that guard fails
(structural recursion with identical behaviour).  Returns the final outcome
and the trace of transport calls made. -/
def retryGo (t : Transport) (m : Message) :
    Nat → Nat → Except String String × List SendEvent
  | attempt, fuel =>
    match t m attempt with
    | Except.ok mid => (Except.ok mid, [⟨m.recipient, m.subject, attempt, true⟩])
    | Except.error e =>
      match fuel with
      | fuel' + 1 =>
        let r := retryGo t m (attempt + 1) fuel'
        (r.1, ⟨m.recipient, m.subject, attempt, false⟩ :: r.2)
      | 0 => (Except.error e, [⟨m.recipient, m.subject, attempt, false⟩])

/-- EmailService.sendEmailWithRetry entered at the given attempt number. -/
def sendEmailWithRetry (t : Transport) (m : Message) (cfg : EmailConfig)
    (attempt : Nat) : Except String String × List SendEvent :=
  retryGo t m attempt (cfg.retryAttempts - attempt)

/-- Result of EmailService.sendEmailToAgent: success carries the message id,
the other constructors carry the distinct failure reasons returned by the
code ("Daily limit reached", "Invalid email", "Already sent",
"Previously failed", and a transport failure with its error message). -/
inductive SendOutcome where
  | success (messageId : String)
  | dailyLimit
  | invalidEmail
  | alreadySent
  | previouslyFailed
  | sendFailed (error : String)
deriving DecidableEq

/-- The message sendEmailToAgent builds for an agent at a given rotation
index. -/
def agentMessage (agent : Agent) (subjectIndex : Nat) : Message :=
  ⟨agent.email, generateSubject subjectIndex,
    generateEmailBody (getFirstName agent.name)⟩

/-- EmailService.sendEmailToAgent: daily-limit check (whose date reset, being
a mutation of the service, persists in every branch), validity check,
already-sent and previously-failed skips, then the retried transport attempt;
a success adds the address to sentEmails and increments dailyCount, a
transport failure adds the address to failedEmails.  Returns the outcome, the
new state and the trace of transport calls. -/
def sendEmailToAgent (t : Transport) (cfg : EmailConfig) (today : String)
    (agent : Agent) (subjectIndex : Nat) (s : EmailState) :
    SendOutcome × EmailState × List SendEvent :=
  let c := checkDailyLimit today cfg s
  let s1 := c.1
  if c.2 = false then (SendOutcome.dailyLimit, s1, [])
  else if isValidEmail agent.email = false then (SendOutcome.invalidEmail, s1, [])
  else if agent.email ∈ s1.sentEmails then (SendOutcome.alreadySent, s1, [])
  else if agent.email ∈ s1.failedEmails then (SendOutcome.previouslyFailed, s1, [])
  else
    let r := sendEmailWithRetry t (agentMessage agent subjectIndex) cfg 1
    match r.1 with
    | Except.ok mid =>
        (SendOutcome.success mid,
         { s1 with sentEmails := s1.sentEmails ++ [agent.email],
                   dailyCount := s1.dailyCount + 1 }, r.2)
    | Except.error e =>
        (SendOutcome.sendFailed e,
         { s1 with failedEmails := s1.failedEmails ++ [agent.email] }, r.2)

/-- One entry of the results array built by sendBulkEmails.  The subjectIndex
field is ghost instrumentation recording the rotation index that was passed
to sendEmailToAgent for this candidate. -/
structure BatchEntry where
  agent : Agent
  outcome : SendOutcome
  subjectIndex : Nat
deriving DecidableEq

/-- The loop body of EmailService.sendBulkEmails: process candidates in
order, rotate the subject index modulo 5 after every candidate, and break as
soon as dailyCount has reached config.email.maxPerDay. -/
def bulkLoop (t : Transport) (cfg : EmailConfig) (today : String) :
    List Agent → Nat → EmailState →
    List BatchEntry × EmailState × List SendEvent
  | [], _, s => ([], s, [])
  | a :: rest, idx, s =>
    let r := sendEmailToAgent t cfg today a idx s
    let entry : BatchEntry := ⟨a, r.1, idx⟩
    if cfg.maxPerDay ≤ r.2.1.dailyCount then ([entry], r.2.1, r.2.2)
    else
      let rr := bulkLoop t cfg today rest ((idx + 1) % 5) r.2.1
      (entry :: rr.1, rr.2.1, r.2.2 ++ rr.2.2)

/-- The aggregate returned by sendBulkEmails. -/
structure BatchResult where
  total : Nat
  successful : Nat
  failed : Nat
  results : List BatchEntry
deriving DecidableEq

/-- Whether a per-candidate outcome counts as a success in the aggregate. -/
def isSuccess : SendOutcome → Bool
  | SendOutcome.success _ => true
  | _ => false

/-- The JavaScript expression maxEmails or-else config.email.maxPerDay: both
null (None) and 0 are falsy and fall back to the configured daily maximum. -/
def jsOrLimit (maxEmails : Option Nat) (cfg : EmailConfig) : Nat :=
  match maxEmails with
  | none => cfg.maxPerDay
  | some n => if n = 0 then cfg.maxPerDay else n

/-- EmailService.sendBulkEmails: truncate the candidate list to the limit,
run the loop with subject index 0, and aggregate the counts.  Also returns
the final state and the full ghost trace of transport calls. -/
def sendBulkEmails (t : Transport) (cfg : EmailConfig) (today : String)
    (agents : List Agent) (maxEmails : Option Nat) (s : EmailState) :
    BatchResult × EmailState × List SendEvent :=
  let limit := jsOrLimit maxEmails cfg
  let agentsToEmail := agents.take limit
  let r := bulkLoop t cfg today agentsToEmail 0 s
  let sc := (r.1.filter (fun e => isSuccess e.outcome)).length
  (⟨r.1.length, sc, r.1.length - sc, r.1⟩, r.2.1, r.2.2)

/-- Number of transport calls addressed to a given recipient in a trace. -/
def callsTo (e : String) (tr : List SendEvent) : Nat :=
  tr.countP (fun ev => ev.recipient == e)

/-- Number of accepted (successful) transport calls addressed to a given
recipient in a trace. -/
def successCountE (e : String) (tr : List SendEvent) : Nat :=
  tr.countP (fun ev => ev.recipient == e && ev.ok)

/-- The persisted document written by EmailService.saveEmailLog. -/
structure EmailLogSnapshot where
  sentEmails : List String
  failedEmails : List String
  dailyCount : Nat
  lastResetDate : String
  lastUpdated : String
deriving DecidableEq

/-- EmailService.saveEmailLog: Array.from of the two Sets (their insertion
order), the counter, the stored date, and a timestamp. -/
def saveEmailLog (s : EmailState) (now : String) : EmailLogSnapshot :=
  ⟨s.sentEmails, s.failedEmails, s.dailyCount, s.lastResetDate, now⟩

/-- Insert a string at the end of the list unless already present: the
behaviour of JavaScript Set construction element by element. -/
def addUnique (l : List String) (x : String) : List String :=
  if x ∈ l then l else l ++ [x]

/-- new Set(array): first occurrences in order. -/
def jsSetOfList (l : List String) : List String :=
  l.foldl addUnique []

/-- EmailService.loadEmailLog applied to a parsed snapshot: rebuild the two
Sets, take the stored counter (the or-else-0 fallback is the identity on a
present count), and replace a falsy (empty) stored date by today's date. -/
def loadEmailLog (log : EmailLogSnapshot) (todayFallback : String) : EmailState :=
  { sentEmails := jsSetOfList log.sentEmails
  , failedEmails := jsSetOfList log.failedEmails
  , dailyCount := log.dailyCount
  , lastResetDate :=
      if log.lastResetDate = "" then todayFallback else log.lastResetDate }

/-- The raw (unnormalised) dedup key of the puppeteer orchestrator: the
template literal email-name-city. -/
def dedupKey (a : Agent) : String :=
  a.email ++ "-" ++ a.name ++ "-" ++ a.city

/-- Modelled from the spec: the dedup key the specification describes, a
normalized (lower-cased) composite of contact identity, name and locality;
used only to compare the specified key against the implemented ones. -/
def normalizedDedupKey (a : Agent) : List Char :=
  (a.email ++ "-" ++ a.name ++ "-" ++ a.city).toList.map Char.toLower

/-- Loop of ScraperOrchestrator.removeDuplicates (puppeteer variant,
filtering with a closure-captured seen Set of raw composite keys). -/
def removeDupGo : List Agent → List String → List Agent
  | [], _ => []
  | a :: rest, seen =>
    let key := dedupKey a
    if key ∈ seen then removeDupGo rest seen
    else a :: removeDupGo rest (seen ++ [key])

/-- ScraperOrchestrator.removeDuplicates (puppeteer variant): keep the first
record for each raw email-name-city key. -/
def removeDuplicates (agents : List Agent) : List Agent :=
  removeDupGo agents []

/-- Loop of the other ScraperOrchestrator.removeDuplicates variant: skip a
record when its lower-cased email or its lower-cased name has been seen
(empty keys are falsy: neither checked nor remembered). -/
def removeDupENGo : List Agent → List (List Char) → List (List Char) → List Agent
  | [], _, _ => []
  | a :: rest, seenE, seenN =>
    let ek := a.email.toList.map Char.toLower
    let nk := a.name.toList.map Char.toLower
    if ek ≠ [] ∧ ek ∈ seenE then removeDupENGo rest seenE seenN
    else if nk ≠ [] ∧ nk ∈ seenN then removeDupENGo rest seenE seenN
    else a :: removeDupENGo rest
      (if ek ≠ [] then seenE ++ [ek] else seenE)
      (if nk ≠ [] then seenN ++ [nk] else seenN)

/-- The other ScraperOrchestrator.removeDuplicates variant (dedup by email or
name independently). -/
def removeDuplicatesByEmailName (agents : List Agent) : List Agent :=
  removeDupENGo agents [] []

/-- A transport whose every attempt fails, with an attempt-indexed error
message. -/
def alwaysFailTransport (errf : Nat → String) : Transport :=
  fun _ attempt => Except.error (errf attempt)

/-- Whether an Except result is a success. -/
def isOk : Except String String → Bool
  | Except.ok _ => true
  | Except.error _ => false

lemma checkDailyLimit_same {today : String} {s : EmailState} (cfg : EmailConfig)
    (h : today = s.lastResetDate) :
    checkDailyLimit today cfg s = (s, decide (s.dailyCount < cfg.maxPerDay)) := by
  simp [checkDailyLimit, h]

lemma checkDailyLimit_diff {today : String} {s : EmailState} (cfg : EmailConfig)
    (h : today ≠ s.lastResetDate) :
    checkDailyLimit today cfg s =
      ({ s with dailyCount := 0, lastResetDate := today },
        decide (0 < cfg.maxPerDay)) := by
  simp [checkDailyLimit, h]

lemma checkDailyLimit_fields (today : String) (cfg : EmailConfig) (s : EmailState) :
    (checkDailyLimit today cfg s).1.sentEmails = s.sentEmails ∧
    (checkDailyLimit today cfg s).1.failedEmails = s.failedEmails ∧
    ((checkDailyLimit today cfg s).1.dailyCount = s.dailyCount ∨
      (checkDailyLimit today cfg s).1.dailyCount = 0) ∧
    ((checkDailyLimit today cfg s).1.lastResetDate = today ∨
      (checkDailyLimit today cfg s).1.lastResetDate = s.lastResetDate) ∧
    ((checkDailyLimit today cfg s).2 = true ↔
      (checkDailyLimit today cfg s).1.dailyCount < cfg.maxPerDay) := by
  by_cases h : today = s.lastResetDate <;> simp [checkDailyLimit, h]

lemma retryGo_ok_eq {t : Transport} {m : Message} {attempt : Nat} {mid : String}
    (fuel : Nat) (h : t m attempt = Except.ok mid) :
    retryGo t m attempt fuel
      = (Except.ok mid, [⟨m.recipient, m.subject, attempt, true⟩]) := by
  rw [retryGo, h]

lemma retryGo_error_zero {t : Transport} {m : Message} {attempt : Nat} {e : String}
    (h : t m attempt = Except.error e) :
    retryGo t m attempt 0
      = (Except.error e, [⟨m.recipient, m.subject, attempt, false⟩]) := by
  rw [retryGo, h]

lemma retryGo_error_succ {t : Transport} {m : Message} {attempt : Nat} {e : String}
    (fuel : Nat) (h : t m attempt = Except.error e) :
    retryGo t m attempt (fuel + 1)
      = ((retryGo t m (attempt + 1) fuel).1,
          ⟨m.recipient, m.subject, attempt, false⟩ :: (retryGo t m (attempt + 1) fuel).2) := by
  rw [retryGo, h]

lemma retryGo_events (t : Transport) (m : Message) :
    ∀ (fuel attempt : Nat), ∀ ev ∈ (retryGo t m attempt fuel).2,
      ev.recipient = m.recipient ∧ ev.subject = m.subject := by
  intro fuel
  induction fuel with
  | zero =>
      intro attempt ev hev
      cases h : t m attempt with
      | ok mid => rw [retryGo_ok_eq 0 h] at hev; simp at hev; simp [hev]
      | error e => rw [retryGo_error_zero h] at hev; simp at hev; simp [hev]
  | succ f ih =>
      intro attempt ev hev
      cases h : t m attempt with
      | ok mid => rw [retryGo_ok_eq (f + 1) h] at hev; simp at hev; simp [hev]
      | error e =>
          rw [retryGo_error_succ f h] at hev
          simp at hev
          rcases hev with hev | hev
          · simp [hev]
          · exact ih (attempt + 1) ev hev

lemma retryGo_okCount (t : Transport) (m : Message) :
    ∀ (fuel attempt : Nat),
      ((retryGo t m attempt fuel).2.filter (fun ev => ev.ok)).length
        = (if isOk (retryGo t m attempt fuel).1 then 1 else 0) := by
  intro fuel
  induction fuel with
  | zero =>
      intro attempt
      cases h : t m attempt with
      | ok mid => rw [retryGo_ok_eq 0 h]; simp [isOk]
      | error e => rw [retryGo_error_zero h]; simp [isOk]
  | succ f ih =>
      intro attempt
      cases h : t m attempt with
      | ok mid => rw [retryGo_ok_eq (f + 1) h]; simp [isOk]
      | error e => rw [retryGo_error_succ f h]; simp [ih (attempt + 1)]

lemma retryGo_always_fail (errf : Nat → String) (m : Message) :
    ∀ (fuel attempt : Nat),
      (retryGo (alwaysFailTransport errf) m attempt fuel).1
          = Except.error (errf (attempt + fuel)) ∧
      (retryGo (alwaysFailTransport errf) m attempt fuel).2.length = fuel + 1 ∧
      ∀ ev ∈ (retryGo (alwaysFailTransport errf) m attempt fuel).2,
        ev.ok = false ∧ ev.recipient = m.recipient := by
  intro fuel
  induction fuel with
  | zero =>
      intro attempt
      have h : alwaysFailTransport errf m attempt = Except.error (errf attempt) := rfl
      rw [retryGo_error_zero h]
      refine ⟨rfl, rfl, ?_⟩
      intro ev hev
      simp at hev
      simp [hev]
  | succ f ih =>
      intro attempt
      obtain ⟨ih1, ih2, ih3⟩ := ih (attempt + 1)
      have h : alwaysFailTransport errf m attempt = Except.error (errf attempt) := rfl
      rw [retryGo_error_succ f h]
      refine ⟨?_, ?_, ?_⟩
      · simp [ih1]
        congr 1
        omega
      · simp [ih2]
      · intro ev hev
        simp at hev
        rcases hev with hev | hev
        · simp [hev]
        · exact ih3 ev hev

lemma sendEmailToAgent_dailyLimit {today : String} {cfg : EmailConfig}
    {s : EmailState} (t : Transport) (a : Agent) (idx : Nat)
    (h1 : (checkDailyLimit today cfg s).2 = false) :
    sendEmailToAgent t cfg today a idx s
      = (SendOutcome.dailyLimit, (checkDailyLimit today cfg s).1, []) := by
  simp [sendEmailToAgent, h1]

lemma sendEmailToAgent_invalid {today : String} {cfg : EmailConfig}
    {s : EmailState} (t : Transport) {a : Agent} (idx : Nat)
    (h1 : (checkDailyLimit today cfg s).2 = true)
    (h2 : isValidEmail a.email = false) :
    sendEmailToAgent t cfg today a idx s
      = (SendOutcome.invalidEmail, (checkDailyLimit today cfg s).1, []) := by
  simp [sendEmailToAgent, h1, h2]

lemma sendEmailToAgent_already {today : String} {cfg : EmailConfig}
    {s : EmailState} (t : Transport) {a : Agent} (idx : Nat)
    (h1 : (checkDailyLimit today cfg s).2 = true)
    (h2 : isValidEmail a.email = true)
    (h3 : a.email ∈ (checkDailyLimit today cfg s).1.sentEmails) :
    sendEmailToAgent t cfg today a idx s
      = (SendOutcome.alreadySent, (checkDailyLimit today cfg s).1, []) := by
  simp [sendEmailToAgent, h1, h2, h3]

lemma sendEmailToAgent_prevFailed {today : String} {cfg : EmailConfig}
    {s : EmailState} (t : Transport) {a : Agent} (idx : Nat)
    (h1 : (checkDailyLimit today cfg s).2 = true)
    (h2 : isValidEmail a.email = true)
    (h3 : a.email ∉ (checkDailyLimit today cfg s).1.sentEmails)
    (h4 : a.email ∈ (checkDailyLimit today cfg s).1.failedEmails) :
    sendEmailToAgent t cfg today a idx s
      = (SendOutcome.previouslyFailed, (checkDailyLimit today cfg s).1, []) := by
  simp [sendEmailToAgent, h1, h2, h3, h4]

lemma sendEmailToAgent_sendOk {today : String} {cfg : EmailConfig}
    {s : EmailState} {t : Transport} {a : Agent} {idx : Nat} {mid : String}
    (h1 : (checkDailyLimit today cfg s).2 = true)
    (h2 : isValidEmail a.email = true)
    (h3 : a.email ∉ (checkDailyLimit today cfg s).1.sentEmails)
    (h4 : a.email ∉ (checkDailyLimit today cfg s).1.failedEmails)
    (hr : (sendEmailWithRetry t (agentMessage a idx) cfg 1).1 = Except.ok mid) :
    sendEmailToAgent t cfg today a idx s
      = (SendOutcome.success mid,
         { (checkDailyLimit today cfg s).1 with
             sentEmails := (checkDailyLimit today cfg s).1.sentEmails ++ [a.email],
             dailyCount := (checkDailyLimit today cfg s).1.dailyCount + 1 },
         (sendEmailWithRetry t (agentMessage a idx) cfg 1).2) := by
  simp [sendEmailToAgent, h1, h2, h3, h4, hr]

lemma sendEmailToAgent_sendErr {today : String} {cfg : EmailConfig}
    {s : EmailState} {t : Transport} {a : Agent} {idx : Nat} {e : String}
    (h1 : (checkDailyLimit today cfg s).2 = true)
    (h2 : isValidEmail a.email = true)
    (h3 : a.email ∉ (checkDailyLimit today cfg s).1.sentEmails)
    (h4 : a.email ∉ (checkDailyLimit today cfg s).1.failedEmails)
    (hr : (sendEmailWithRetry t (agentMessage a idx) cfg 1).1 = Except.error e) :
    sendEmailToAgent t cfg today a idx s
      = (SendOutcome.sendFailed e,
         { (checkDailyLimit today cfg s).1 with
             failedEmails := (checkDailyLimit today cfg s).1.failedEmails ++ [a.email] },
         (sendEmailWithRetry t (agentMessage a idx) cfg 1).2) := by
  simp [sendEmailToAgent, h1, h2, h3, h4, hr]

lemma successCountE_eq_zero_of {e : String} {tr : List SendEvent}
    (h : ∀ ev ∈ tr, ev.recipient ≠ e) : successCountE e tr = 0 := by
  unfold successCountE
  rw [List.countP_eq_zero]
  intro ev hev
  simp [h ev hev]

lemma successCountE_le_filter_ok (e : String) (tr : List SendEvent) :
    successCountE e tr ≤ (tr.filter (fun ev => ev.ok)).length := by
  unfold successCountE
  rw [← List.countP_eq_length_filter]
  apply List.countP_mono_left
  intro ev _ hp
  exact (Bool.and_eq_true_iff.mp hp).2

lemma successCountE_append (e : String) (l1 l2 : List SendEvent) :
    successCountE e (l1 ++ l2) = successCountE e l1 + successCountE e l2 := by
  unfold successCountE
  exact List.countP_append _ _ _

lemma sendEmailToAgent_spec (t : Transport) (cfg : EmailConfig) (today : String)
    (a : Agent) (idx : Nat) (s : EmailState) :
    (∀ e, e ∈ (sendEmailToAgent t cfg today a idx s).2.1.sentEmails →
        e ∈ s.sentEmails ∨ e = a.email) ∧
    (∀ e, e ∈ s.sentEmails → e ∈ (sendEmailToAgent t cfg today a idx s).2.1.sentEmails) ∧
    (∀ e, e ∈ (sendEmailToAgent t cfg today a idx s).2.1.failedEmails →
        e ∈ s.failedEmails ∨ e = a.email) ∧
    (∀ e, e ∈ s.failedEmails → e ∈ (sendEmailToAgent t cfg today a idx s).2.1.failedEmails) ∧
    ((sendEmailToAgent t cfg today a idx s).2.1.dailyCount ≤ cfg.maxPerDay ∨
      (sendEmailToAgent t cfg today a idx s).2.1.dailyCount = s.dailyCount) ∧
    (∀ ev ∈ (sendEmailToAgent t cfg today a idx s).2.2,
        ev.recipient = a.email ∧ ev.subject = generateSubject idx ∧
        a.email ∉ s.sentEmails ∧ a.email ∉ s.failedEmails) := by
  obtain ⟨cfs, cff, cfc, cfd, cfiff⟩ := checkDailyLimit_fields today cfg s
  by_cases h1 : (checkDailyLimit today cfg s).2 = true
  · by_cases h2 : isValidEmail a.email = true
    · by_cases h3 : a.email ∈ (checkDailyLimit today cfg s).1.sentEmails
      · rw [sendEmailToAgent_already t idx h1 h2 h3]
        refine ⟨?_, ?_, ?_, ?_, ?_, ?_⟩
        · intro e he; simp only at he; rw [cfs] at he; exact Or.inl he
        · intro e he; simp only; rw [cfs]; exact he
        · intro e he; simp only at he; rw [cff] at he; exact Or.inl he
        · intro e he; simp only; rw [cff]; exact he
        · simp only
          rcases cfc with h | h
          · exact Or.inr h
          · exact Or.inl (h ▸ Nat.zero_le _)
        · intro ev hev; simp at hev
      · by_cases h4 : a.email ∈ (checkDailyLimit today cfg s).1.failedEmails
        · rw [sendEmailToAgent_prevFailed t idx h1 h2 h3 h4]
          refine ⟨?_, ?_, ?_, ?_, ?_, ?_⟩
          · intro e he; simp only at he; rw [cfs] at he; exact Or.inl he
          · intro e he; simp only; rw [cfs]; exact he
          · intro e he; simp only at he; rw [cff] at he; exact Or.inl he
          · intro e he; simp only; rw [cff]; exact he
          · simp only
            rcases cfc with h | h
            · exact Or.inr h
            · exact Or.inl (h ▸ Nat.zero_le _)
          · intro ev hev; simp at hev
        · have hnotS : a.email ∉ s.sentEmails := by rw [← cfs]; exact h3
          have hnotF : a.email ∉ s.failedEmails := by rw [← cff]; exact h4
          have hev0 : ∀ ev ∈ (sendEmailWithRetry t (agentMessage a idx) cfg 1).2,
              ev.recipient = a.email ∧ ev.subject = generateSubject idx := by
            intro ev hev
            exact retryGo_events t (agentMessage a idx) _ 1 ev hev
          cases hr : (sendEmailWithRetry t (agentMessage a idx) cfg 1).1 with
          | ok mid =>
              rw [sendEmailToAgent_sendOk h1 h2 h3 h4 hr]
              refine ⟨?_, ?_, ?_, ?_, ?_, ?_⟩
              · intro e he; simp only at he
                rw [List.mem_append] at he
                rcases he with he | he
                · rw [cfs] at he; exact Or.inl he
                · simp at he; exact Or.inr he
              · intro e he; simp only; rw [List.mem_append, cfs]; exact Or.inl he
              · intro e he; simp only at he; rw [cff] at he; exact Or.inl he
              · intro e he; simp only; rw [cff]; exact he
              · simp only
                left
                have := cfiff.mp h1
                omega
              · intro ev hev
                simp only at hev
                exact ⟨(hev0 ev hev).1, (hev0 ev hev).2, hnotS, hnotF⟩
          | error e0 =>
              rw [sendEmailToAgent_sendErr h1 h2 h3 h4 hr]
              refine ⟨?_, ?_, ?_, ?_, ?_, ?_⟩
              · intro e he; simp only at he; rw [cfs] at he; exact Or.inl he
              · intro e he; simp only; rw [cfs]; exact he
              · intro e he; simp only at he
                rw [List.mem_append] at he
                rcases he with he | he
                · rw [cff] at he; exact Or.inl he
                · simp at he; exact Or.inr he
              · intro e he; simp only; rw [List.mem_append, cff]; exact Or.inl he
              · simp only
                rcases cfc with h | h
                · exact Or.inr h
                · exact Or.inl (h ▸ Nat.zero_le _)
              · intro ev hev
                simp only at hev
                exact ⟨(hev0 ev hev).1, (hev0 ev hev).2, hnotS, hnotF⟩
    · have h2' : isValidEmail a.email = false := by
        rw [← Bool.not_eq_true]; exact h2
      rw [sendEmailToAgent_invalid t idx h1 h2']
      refine ⟨?_, ?_, ?_, ?_, ?_, ?_⟩
      · intro e he; simp only at he; rw [cfs] at he; exact Or.inl he
      · intro e he; simp only; rw [cfs]; exact he
      · intro e he; simp only at he; rw [cff] at he; exact Or.inl he
      · intro e he; simp only; rw [cff]; exact he
      · simp only
        rcases cfc with h | h
        · exact Or.inr h
        · exact Or.inl (h ▸ Nat.zero_le _)
      · intro ev hev; simp at hev
  · have h1' : (checkDailyLimit today cfg s).2 = false := by
      rw [← Bool.not_eq_true]; exact h1
    rw [sendEmailToAgent_dailyLimit t a idx h1']
    refine ⟨?_, ?_, ?_, ?_, ?_, ?_⟩
    · intro e he; simp only at he; rw [cfs] at he; exact Or.inl he
    · intro e he; simp only; rw [cfs]; exact he
    · intro e he; simp only at he; rw [cff] at he; exact Or.inl he
    · intro e he; simp only; rw [cff]; exact he
    · simp only
      rcases cfc with h | h
      · exact Or.inr h
      · exact Or.inl (h ▸ Nat.zero_le _)
    · intro ev hev; simp at hev

lemma sendEmailToAgent_successCount (t : Transport) (cfg : EmailConfig)
    (today : String) (a : Agent) (idx : Nat) (s : EmailState) (e : String) :
    successCountE e (sendEmailToAgent t cfg today a idx s).2.2 ≤ 1 ∧
    (1 ≤ successCountE e (sendEmailToAgent t cfg today a idx s).2.2 →
      e ∈ (sendEmailToAgent t cfg today a idx s).2.1.sentEmails) := by
  by_cases h1 : (checkDailyLimit today cfg s).2 = true
  · by_cases h2 : isValidEmail a.email = true
    · by_cases h3 : a.email ∈ (checkDailyLimit today cfg s).1.sentEmails
      · rw [sendEmailToAgent_already t idx h1 h2 h3]
        simp [successCountE]
      · by_cases h4 : a.email ∈ (checkDailyLimit today cfg s).1.failedEmails
        · rw [sendEmailToAgent_prevFailed t idx h1 h2 h3 h4]
          simp [successCountE]
        · have hok := retryGo_okCount t (agentMessage a idx)
            (cfg.retryAttempts - 1) 1
          have hevs := retryGo_events t (agentMessage a idx)
            (cfg.retryAttempts - 1) 1
          cases hr : (sendEmailWithRetry t (agentMessage a idx) cfg 1).1 with
          | ok mid =>
              rw [sendEmailToAgent_sendOk h1 h2 h3 h4 hr]
              simp only
              constructor
              · refine le_trans (successCountE_le_filter_ok e _) ?_
                have hisok : isOk (sendEmailWithRetry t (agentMessage a idx) cfg 1).1
                    = true := by rw [hr]; rfl
                unfold sendEmailWithRetry at hisok ⊢
                rw [hok, hisok]
                simp
              · intro hcount
                rw [List.mem_append]
                by_cases he : e = a.email
                · right; simp [he]
                · exfalso
                  have h0 : successCountE e
                      (sendEmailWithRetry t (agentMessage a idx) cfg 1).2 = 0 := by
                    apply successCountE_eq_zero_of
                    intro ev hev
                    have := (hevs ev hev).1
                    simp [agentMessage] at this
                    rw [this]
                    intro hc
                    exact he hc.symm
                  rw [h0] at hcount
                  omega
          | error e0 =>
              rw [sendEmailToAgent_sendErr h1 h2 h3 h4 hr]
              simp only
              have hisok : isOk (sendEmailWithRetry t (agentMessage a idx) cfg 1).1
                  = false := by rw [hr]; rfl
              have hle := successCountE_le_filter_ok e
                (sendEmailWithRetry t (agentMessage a idx) cfg 1).2
              unfold sendEmailWithRetry at hisok hle
              rw [hok, hisok] at hle
              simp at hle
              constructor
              · unfold sendEmailWithRetry
                omega
              · intro hc
                exfalso
                unfold sendEmailWithRetry at hc
                omega
    · have h2' : isValidEmail a.email = false := by
        rw [← Bool.not_eq_true]; exact h2
      rw [sendEmailToAgent_invalid t idx h1 h2']
      simp [successCountE]
  · have h1' : (checkDailyLimit today cfg s).2 = false := by
      rw [← Bool.not_eq_true]; exact h1
    rw [sendEmailToAgent_dailyLimit t a idx h1']
    simp [successCountE]

lemma bulkLoop_nil (t : Transport) (cfg : EmailConfig) (today : String)
    (idx : Nat) (s : EmailState) :
    bulkLoop t cfg today [] idx s = ([], s, []) := rfl

lemma bulkLoop_cons_break {t : Transport} {cfg : EmailConfig} {today : String}
    {a : Agent} {idx : Nat} {s : EmailState} (rest : List Agent)
    (h : cfg.maxPerDay ≤ (sendEmailToAgent t cfg today a idx s).2.1.dailyCount) :
    bulkLoop t cfg today (a :: rest) idx s
      = ([⟨a, (sendEmailToAgent t cfg today a idx s).1, idx⟩],
         (sendEmailToAgent t cfg today a idx s).2.1,
         (sendEmailToAgent t cfg today a idx s).2.2) := by
  simp [bulkLoop, h]

lemma bulkLoop_cons_cont {t : Transport} {cfg : EmailConfig} {today : String}
    {a : Agent} {idx : Nat} {s : EmailState} (rest : List Agent)
    (h : ¬ cfg.maxPerDay ≤ (sendEmailToAgent t cfg today a idx s).2.1.dailyCount) :
    bulkLoop t cfg today (a :: rest) idx s
      = (⟨a, (sendEmailToAgent t cfg today a idx s).1, idx⟩ ::
           (bulkLoop t cfg today rest ((idx + 1) % 5)
             (sendEmailToAgent t cfg today a idx s).2.1).1,
         (bulkLoop t cfg today rest ((idx + 1) % 5)
             (sendEmailToAgent t cfg today a idx s).2.1).2.1,
         (sendEmailToAgent t cfg today a idx s).2.2 ++
           (bulkLoop t cfg today rest ((idx + 1) % 5)
             (sendEmailToAgent t cfg today a idx s).2.1).2.2) := by
  simp [bulkLoop, h]

lemma bulkLoop_prefix (t : Transport) (cfg : EmailConfig) (today : String) :
    ∀ (L : List Agent) (idx : Nat) (s : EmailState),
      (bulkLoop t cfg today L idx s).1.map BatchEntry.agent
          = L.take (bulkLoop t cfg today L idx s).1.length ∧
      (bulkLoop t cfg today L idx s).1.length ≤ L.length ∧
      ((bulkLoop t cfg today L idx s).1.length < L.length →
        cfg.maxPerDay ≤ (bulkLoop t cfg today L idx s).2.1.dailyCount) := by
  intro L
  induction L with
  | nil => intro idx s; simp [bulkLoop_nil]
  | cons a rest ih =>
      intro idx s
      by_cases hb : cfg.maxPerDay ≤ (sendEmailToAgent t cfg today a idx s).2.1.dailyCount
      · rw [bulkLoop_cons_break rest hb]
        refine ⟨by simp, by simp, fun _ => hb⟩
      · rw [bulkLoop_cons_cont rest hb]
        obtain ⟨ih1, ih2, ih3⟩ :=
          ih ((idx + 1) % 5) (sendEmailToAgent t cfg today a idx s).2.1
        refine ⟨?_, ?_, ?_⟩
        · simp only [List.map_cons, List.length_cons, List.take_succ_cons]
          rw [ih1]
        · simp only [List.length_cons]
          exact Nat.succ_le_succ ih2
        · simp only [List.length_cons]
          intro hlt
          exact ih3 (Nat.lt_of_succ_lt_succ hlt)

lemma sendEmailToAgent_date (t : Transport) (cfg : EmailConfig) (today : String)
    (a : Agent) (idx : Nat) (s : EmailState) :
    (sendEmailToAgent t cfg today a idx s).2.1.lastResetDate = today ∨
    (sendEmailToAgent t cfg today a idx s).2.1.lastResetDate = s.lastResetDate := by
  obtain ⟨_, _, _, cfd, _⟩ := checkDailyLimit_fields today cfg s
  by_cases h1 : (checkDailyLimit today cfg s).2 = true
  · by_cases h2 : isValidEmail a.email = true
    · by_cases h3 : a.email ∈ (checkDailyLimit today cfg s).1.sentEmails
      · rw [sendEmailToAgent_already t idx h1 h2 h3]; exact cfd
      · by_cases h4 : a.email ∈ (checkDailyLimit today cfg s).1.failedEmails
        · rw [sendEmailToAgent_prevFailed t idx h1 h2 h3 h4]; exact cfd
        · cases hr : (sendEmailWithRetry t (agentMessage a idx) cfg 1).1 with
          | ok mid => rw [sendEmailToAgent_sendOk h1 h2 h3 h4 hr]; exact cfd
          | error e0 => rw [sendEmailToAgent_sendErr h1 h2 h3 h4 hr]; exact cfd
    · have h2' : isValidEmail a.email = false := by
        rw [← Bool.not_eq_true]; exact h2
      rw [sendEmailToAgent_invalid t idx h1 h2']; exact cfd
  · have h1' : (checkDailyLimit today cfg s).2 = false := by
      rw [← Bool.not_eq_true]; exact h1
    rw [sendEmailToAgent_dailyLimit t a idx h1']; exact cfd

lemma bulkLoop_touch (t : Transport) (cfg : EmailConfig) (today : String) :
    ∀ (L : List Agent) (idx : Nat) (s : EmailState),
      (∀ e, e ∈ (bulkLoop t cfg today L idx s).2.1.sentEmails →
          e ∈ s.sentEmails ∨
            e ∈ (bulkLoop t cfg today L idx s).1.map (fun p => p.agent.email)) ∧
      (∀ e, e ∈ s.sentEmails → e ∈ (bulkLoop t cfg today L idx s).2.1.sentEmails) ∧
      (∀ e, e ∈ (bulkLoop t cfg today L idx s).2.1.failedEmails →
          e ∈ s.failedEmails ∨
            e ∈ (bulkLoop t cfg today L idx s).1.map (fun p => p.agent.email)) ∧
      (∀ e, e ∈ s.failedEmails → e ∈ (bulkLoop t cfg today L idx s).2.1.failedEmails) ∧
      (∀ ev ∈ (bulkLoop t cfg today L idx s).2.2,
          ev.recipient ∈ (bulkLoop t cfg today L idx s).1.map (fun p => p.agent.email) ∧
          ev.recipient ∉ s.sentEmails ∧ ev.recipient ∉ s.failedEmails) ∧
      ((bulkLoop t cfg today L idx s).2.1.dailyCount ≤ cfg.maxPerDay ∨
        (bulkLoop t cfg today L idx s).2.1.dailyCount = s.dailyCount) := by
  intro L
  induction L with
  | nil =>
      intro idx s
      rw [bulkLoop_nil]
      exact ⟨fun e he => Or.inl he, fun e he => he, fun e he => Or.inl he,
        fun e he => he, fun ev hev => absurd hev (List.not_mem_nil ev),
        Or.inr rfl⟩
  | cons a rest ih =>
      intro idx s
      obtain ⟨a1, a2, a3, a4, a5, a6⟩ := sendEmailToAgent_spec t cfg today a idx s
      by_cases hb : cfg.maxPerDay ≤ (sendEmailToAgent t cfg today a idx s).2.1.dailyCount
      · rw [bulkLoop_cons_break rest hb]
        refine ⟨?_, ?_, ?_, ?_, ?_, ?_⟩
        · intro e he
          simp only at he
          rcases a1 e he with h | h
          · exact Or.inl h
          · exact Or.inr (by simp [h])
        · intro e he; exact a2 e he
        · intro e he
          simp only at he
          rcases a3 e he with h | h
          · exact Or.inl h
          · exact Or.inr (by simp [h])
        · intro e he; exact a4 e he
        · intro ev hev
          obtain ⟨hr, _, hs, hf⟩ := a6 ev hev
          exact ⟨by simp [hr], by rw [hr]; exact hs, by rw [hr]; exact hf⟩
        · exact a5
      · rw [bulkLoop_cons_cont rest hb]
        obtain ⟨i1, i2, i3, i4, i5, i6⟩ :=
          ih ((idx + 1) % 5) (sendEmailToAgent t cfg today a idx s).2.1
        refine ⟨?_, ?_, ?_, ?_, ?_, ?_⟩
        · intro e he
          simp only at he
          rcases i1 e he with h | h
          · rcases a1 e h with h' | h'
            · exact Or.inl h'
            · exact Or.inr (by simp [h'])
          · exact Or.inr (by simp only [List.map_cons, List.mem_cons]; exact Or.inr h)
        · intro e he
          exact i2 e (a2 e he)
        · intro e he
          simp only at he
          rcases i3 e he with h | h
          · rcases a3 e h with h' | h'
            · exact Or.inl h'
            · exact Or.inr (by simp [h'])
          · exact Or.inr (by simp only [List.map_cons, List.mem_cons]; exact Or.inr h)
        · intro e he
          exact i4 e (a4 e he)
        · intro ev hev
          simp only [List.mem_append] at hev
          rcases hev with hev | hev
          · obtain ⟨hr, _, hs, hf⟩ := a6 ev hev
            exact ⟨by simp [hr], by rw [hr]; exact hs, by rw [hr]; exact hf⟩
          · obtain ⟨hr, hs, hf⟩ := i5 ev hev
            refine ⟨by simp only [List.map_cons, List.mem_cons]; exact Or.inr hr, ?_, ?_⟩
            · intro hc; exact hs (a2 _ hc)
            · intro hc; exact hf (a4 _ hc)
        · rcases i6 with h | h
          · exact Or.inl h
          · rw [h]
            exact a5

lemma bulkLoop_success (t : Transport) (cfg : EmailConfig) (today : String) :
    ∀ (L : List Agent) (idx : Nat) (s : EmailState) (e : String),
      successCountE e (bulkLoop t cfg today L idx s).2.2 ≤ 1 ∧
      (1 ≤ successCountE e (bulkLoop t cfg today L idx s).2.2 →
        e ∈ (bulkLoop t cfg today L idx s).2.1.sentEmails) := by
  intro L
  induction L with
  | nil =>
      intro idx s e
      rw [bulkLoop_nil]
      simp [successCountE]
  | cons a rest ih =>
      intro idx s e
      obtain ⟨ac1, ac2⟩ := sendEmailToAgent_successCount t cfg today a idx s e
      by_cases hb : cfg.maxPerDay ≤ (sendEmailToAgent t cfg today a idx s).2.1.dailyCount
      · rw [bulkLoop_cons_break rest hb]
        exact ⟨ac1, ac2⟩
      · rw [bulkLoop_cons_cont rest hb]
        obtain ⟨ic1, ic2⟩ :=
          ih ((idx + 1) % 5) (sendEmailToAgent t cfg today a idx s).2.1 e
        obtain ⟨_, m2, _, _, i5, _⟩ :=
          bulkLoop_touch t cfg today rest ((idx + 1) % 5)
            (sendEmailToAgent t cfg today a idx s).2.1
        simp only [successCountE_append]
        by_cases hc1 : 1 ≤ successCountE e (sendEmailToAgent t cfg today a idx s).2.2
        · have hmem : e ∈ (sendEmailToAgent t cfg today a idx s).2.1.sentEmails :=
            ac2 hc1
          have hzero : successCountE e
              (bulkLoop t cfg today rest ((idx + 1) % 5)
                (sendEmailToAgent t cfg today a idx s).2.1).2.2 = 0 := by
            apply successCountE_eq_zero_of
            intro ev hev
            intro hc
            exact (i5 ev hev).2.1 (hc ▸ hmem)
          constructor
          · omega
          · intro _
            exact m2 e hmem
        · have hc0 : successCountE e (sendEmailToAgent t cfg today a idx s).2.2 = 0 := by
            omega
          rw [hc0]
          simpa using ⟨ic1, ic2⟩

lemma bulkLoop_skip (t : Transport) (cfg : EmailConfig) (today : String) :
    ∀ (L : List Agent) (idx : Nat) (s : EmailState),
      s.dailyCount < cfg.maxPerDay → s.lastResetDate = today →
      ∀ p ∈ (bulkLoop t cfg today L idx s).1,
        isValidEmail p.agent.email = true → p.agent.email ∈ s.sentEmails →
        p.outcome = SendOutcome.alreadySent := by
  intro L
  induction L with
  | nil =>
      intro idx s _ _ p hp
      rw [bulkLoop_nil] at hp
      exact absurd hp (List.not_mem_nil p)
  | cons a rest ih =>
      intro idx s hcount hdate p hp hvalid hsent
      have hcheck : checkDailyLimit today cfg s
          = (s, decide (s.dailyCount < cfg.maxPerDay)) :=
        checkDailyLimit_same cfg hdate.symm
      have hcheck2 : (checkDailyLimit today cfg s).2 = true := by
        rw [hcheck]; simpa using hcount
      have hcheck1 : (checkDailyLimit today cfg s).1 = s := by rw [hcheck]
      have entry_eq : ∀ hv : isValidEmail a.email = true,
          a.email ∈ s.sentEmails →
          sendEmailToAgent t cfg today a idx s
            = (SendOutcome.alreadySent, (checkDailyLimit today cfg s).1, []) := by
        intro hv hmem
        exact sendEmailToAgent_already t idx hcheck2 hv (by rw [hcheck1]; exact hmem)
      by_cases hb : cfg.maxPerDay ≤ (sendEmailToAgent t cfg today a idx s).2.1.dailyCount
      · rw [bulkLoop_cons_break rest hb] at hp
        simp only [List.mem_singleton] at hp
        subst hp
        simp only at hvalid hsent
        rw [entry_eq hvalid hsent]
      · rw [bulkLoop_cons_cont rest hb] at hp
        simp only [List.mem_cons] at hp
        rcases hp with hp | hp
        · subst hp
          simp only at hvalid hsent
          rw [entry_eq hvalid hsent]
        · obtain ⟨_, m2, _, _, _, _⟩ := sendEmailToAgent_spec t cfg today a idx s
          have hcount' : (sendEmailToAgent t cfg today a idx s).2.1.dailyCount
              < cfg.maxPerDay := Nat.lt_of_not_le hb
          have hdate' : (sendEmailToAgent t cfg today a idx s).2.1.lastResetDate
              = today := by
            rcases sendEmailToAgent_date t cfg today a idx s with h | h
            · exact h
            · rw [h, hdate]
          exact ih ((idx + 1) % 5) (sendEmailToAgent t cfg today a idx s).2.1
            hcount' hdate' p hp hvalid (m2 _ hsent)

lemma bulkLoop_idx (t : Transport) (cfg : EmailConfig) (today : String) :
    ∀ (L : List Agent) (idx : Nat) (s : EmailState), idx < 5 →
      (bulkLoop t cfg today L idx s).1.map BatchEntry.subjectIndex
        = (List.range (bulkLoop t cfg today L idx s).1.length).map
            (fun i => (idx + i) % 5) := by
  intro L
  induction L with
  | nil =>
      intro idx s _
      rw [bulkLoop_nil]
      simp
  | cons a rest ih =>
      intro idx s hidx
      by_cases hb : cfg.maxPerDay ≤ (sendEmailToAgent t cfg today a idx s).2.1.dailyCount
      · rw [bulkLoop_cons_break rest hb]
        have h1 : List.range 1 = [0] := rfl
        simp only [List.map_cons, List.map_nil, List.length_singleton, h1]
        simp [Nat.mod_eq_of_lt hidx]
      · rw [bulkLoop_cons_cont rest hb]
        simp only [List.map_cons, List.length_cons, List.range_succ_eq_map,
          List.map_map]
        have hih := ih ((idx + 1) % 5) (sendEmailToAgent t cfg today a idx s).2.1
          (Nat.mod_lt _ (by omega))
        rw [hih]
        congr 1
        · omega
        · have hfun : (fun i => ((idx + 1) % 5 + i) % 5)
              = ((fun i => (idx + i) % 5) ∘ Nat.succ) := by
            funext i
            simp only [Function.comp]
            omega
          rw [hfun]

lemma callsTo_eq_zero_of {e : String} {tr : List SendEvent}
    (h : ∀ ev ∈ tr, ev.recipient ≠ e) : callsTo e tr = 0 := by
  unfold callsTo
  rw [List.countP_eq_zero]
  intro ev hev
  simp [h ev hev]

lemma checkDailyLimit_date (today : String) (cfg : EmailConfig) (s : EmailState) :
    (checkDailyLimit today cfg s).1.lastResetDate = today := by
  by_cases h : today = s.lastResetDate
  · rw [checkDailyLimit_same cfg h]
    exact h.symm
  · rw [checkDailyLimit_diff cfg h]

lemma sendBulkEmails_results (t : Transport) (cfg : EmailConfig) (today : String)
    (agents : List Agent) (maxEmails : Option Nat) (s : EmailState) :
    (sendBulkEmails t cfg today agents maxEmails s).1.results
      = (bulkLoop t cfg today (agents.take (jsOrLimit maxEmails cfg)) 0 s).1 := rfl

lemma sendBulkEmails_state (t : Transport) (cfg : EmailConfig) (today : String)
    (agents : List Agent) (maxEmails : Option Nat) (s : EmailState) :
    (sendBulkEmails t cfg today agents maxEmails s).2.1
      = (bulkLoop t cfg today (agents.take (jsOrLimit maxEmails cfg)) 0 s).2.1 := rfl

lemma sendBulkEmails_trace (t : Transport) (cfg : EmailConfig) (today : String)
    (agents : List Agent) (maxEmails : Option Nat) (s : EmailState) :
    (sendBulkEmails t cfg today agents maxEmails s).2.2
      = (bulkLoop t cfg today (agents.take (jsOrLimit maxEmails cfg)) 0 s).2.2 := rfl

lemma foldl_addUnique (l : List String) :
    ∀ acc : List String, (acc ++ l).Nodup → l.foldl addUnique acc = acc ++ l := by
  induction l with
  | nil => intro acc _; simp
  | cons x xs ih =>
      intro acc hnd
      have hx : x ∉ acc := by
        intro hc
        rw [List.append_cons] at hnd
        have := (List.nodup_append.mp hnd).1
        exact (List.nodup_append.mp this).2.2 hc (List.mem_singleton_self x)
      have hstep : addUnique acc x = acc ++ [x] := by simp [addUnique, hx]
      have hnd' : ((acc ++ [x]) ++ xs).Nodup := by
        rw [List.append_cons] at hnd
        exact hnd
      calc (x :: xs).foldl addUnique acc
        = xs.foldl addUnique (addUnique acc x) := rfl
        _ = xs.foldl addUnique (acc ++ [x]) := by rw [hstep]
        _ = (acc ++ [x]) ++ xs := ih (acc ++ [x]) hnd'
        _ = acc ++ x :: xs := by rw [← List.append_cons]

lemma jsSetOfList_nodup {l : List String} (h : l.Nodup) : jsSetOfList l = l := by
  unfold jsSetOfList
  simpa using foldl_addUnique l [] (by simpa using h)

lemma removeDupGo_sublist : ∀ (l : List Agent) (seen : List String),
    (removeDupGo l seen).Sublist l := by
  intro l
  induction l with
  | nil => intro seen; simp [removeDupGo]
  | cons a rest ih =>
      intro seen
      by_cases hk : dedupKey a ∈ seen
      · simp only [removeDupGo, hk, if_pos]
        exact (ih seen).cons a
      · simp only [removeDupGo, hk, if_neg, not_false_iff]
        exact (ih (seen ++ [dedupKey a])).cons₂ a

lemma removeDupGo_key_notin_seen : ∀ (l : List Agent) (seen : List String)
    (b : Agent), b ∈ removeDupGo l seen → dedupKey b ∉ seen := by
  intro l
  induction l with
  | nil => intro seen b hb; simp [removeDupGo] at hb
  | cons a rest ih =>
      intro seen b hb
      by_cases hk : dedupKey a ∈ seen
      · simp only [removeDupGo, hk, if_pos] at hb
        exact ih seen b hb
      · simp only [removeDupGo, hk, if_neg, not_false_iff, List.mem_cons] at hb
        rcases hb with hb | hb
        · rw [hb]; exact hk
        · have := ih (seen ++ [dedupKey a]) b hb
          intro hc
          exact this (List.mem_append_left _ hc)

lemma removeDupGo_keys_nodup : ∀ (l : List Agent) (seen : List String),
    ((removeDupGo l seen).map dedupKey).Nodup := by
  intro l
  induction l with
  | nil => intro seen; simp [removeDupGo]
  | cons a rest ih =>
      intro seen
      by_cases hk : dedupKey a ∈ seen
      · simp only [removeDupGo, hk, if_pos]
        exact ih seen
      · simp only [removeDupGo, hk, if_neg, not_false_iff, List.map_cons]
        refine List.Nodup.cons ?_ (ih (seen ++ [dedupKey a]))
        intro hc
        rw [List.mem_map] at hc
        obtain ⟨b, hb, hkey⟩ := hc
        have := removeDupGo_key_notin_seen rest (seen ++ [dedupKey a]) b hb
        exact this (by rw [hkey]; exact List.mem_append_right _ (List.mem_singleton_self _))

lemma removeDupGo_key_mem : ∀ (l : List Agent) (seen : List String) (k : String),
    k ∈ (removeDupGo l seen).map dedupKey ↔ (k ∈ l.map dedupKey ∧ k ∉ seen) := by
  intro l
  induction l with
  | nil => intro seen k; simp [removeDupGo]
  | cons a rest ih =>
      intro seen k
      by_cases hk : dedupKey a ∈ seen
      · simp only [removeDupGo, hk, if_pos, List.map_cons, List.mem_cons]
        rw [ih seen k]
        constructor
        · rintro ⟨h1, h2⟩
          exact ⟨Or.inr h1, h2⟩
        · rintro ⟨h1, h2⟩
          rcases h1 with h1 | h1
          · exact absurd (h1 ▸ hk) h2
          · exact ⟨h1, h2⟩
      · simp only [removeDupGo, hk, if_neg, not_false_iff, List.map_cons,
          List.mem_cons]
        rw [ih (seen ++ [dedupKey a]) k]
        constructor
        · rintro (h | ⟨h1, h2⟩)
          · exact ⟨Or.inl h, h ▸ hk⟩
          · refine ⟨Or.inr h1, ?_⟩
            intro hc
            exact h2 (List.mem_append_left _ hc)
        · rintro ⟨h1, h2⟩
          by_cases he : k = dedupKey a
          · exact Or.inl he
          · rcases h1 with h1 | h1
            · exact Or.inl h1
            · refine Or.inr ⟨h1, ?_⟩
              intro hc
              rw [List.mem_append] at hc
              rcases hc with hc | hc
              · exact h2 hc
              · rw [List.mem_singleton] at hc
                exact he hc

lemma removeDupGo_first : ∀ (l : List Agent) (seen : List String) (b : Agent),
    b ∈ removeDupGo l seen →
    ∃ i, ∃ h : i < l.length, l.get ⟨i, h⟩ = b ∧
      ∀ j (hj : j < i), dedupKey (l.get ⟨j, Nat.lt_trans hj h⟩) ≠ dedupKey b := by
  intro l
  induction l with
  | nil => intro seen b hb; simp [removeDupGo] at hb
  | cons a rest ih =>
      intro seen b hb
      by_cases hk : dedupKey a ∈ seen
      · simp only [removeDupGo, hk, if_pos] at hb
        have hbn := removeDupGo_key_notin_seen rest seen b hb
        obtain ⟨i, h, heq, hprev⟩ := ih seen b hb
        refine ⟨i + 1, Nat.succ_lt_succ h, by simpa using heq, ?_⟩
        intro j hj
        match j, hj with
        | 0, _ =>
            show dedupKey a ≠ dedupKey b
            intro hc
            rw [← hc] at hbn
            exact hbn hk
        | j + 1, hj =>
            simp only [List.get_cons_succ]
            exact hprev j (Nat.lt_of_succ_lt_succ hj)
      · simp only [removeDupGo, hk, if_neg, not_false_iff, List.mem_cons] at hb
        rcases hb with hb | hb
        · exact ⟨0, Nat.succ_pos _, by simp [hb], by intro j hj; omega⟩
        · have hbn := removeDupGo_key_notin_seen rest (seen ++ [dedupKey a]) b hb
          obtain ⟨i, h, heq, hprev⟩ := ih (seen ++ [dedupKey a]) b hb
          refine ⟨i + 1, Nat.succ_lt_succ h, by simpa using heq, ?_⟩
          intro j hj
          match j, hj with
          | 0, _ =>
              show dedupKey a ≠ dedupKey b
              intro hc
              rw [← hc] at hbn
              exact hbn (List.mem_append_right _ (List.mem_singleton_self _))
          | j + 1, hj =>
              simp only [List.get_cons_succ]
              exact hprev j (Nat.lt_of_succ_lt_succ hj)

/-- A transport that accepts every message with a fixed id, for concrete
scenario runs. -/
def okTransport : Transport := fun _ _ => Except.ok "id"

/-- A fresh ledger state whose stored date is the test day. -/
def stFresh : EmailState := ⟨[], [], 0, "d"⟩

/-- maxPerDay 1, retryAttempts 3. -/
def cfgOne : EmailConfig := ⟨1, 3⟩

/-- maxPerDay 5, retryAttempts 3. -/
def cfgFive : EmailConfig := ⟨5, 3⟩

/-- maxPerDay 50, retryAttempts 3 (the configuration defaults). -/
def cfgFifty : EmailConfig := ⟨50, 3⟩

/-- A valid fresh candidate. -/
def annAgent : Agent := ⟨"Ann", "ann@x.com", "NY", "NY"⟩

/-- A candidate whose address is already recorded as sent in stOld. -/
def oldAgent : Agent := ⟨"Old", "old@x.com", "NY", "NY"⟩

/-- A valid fresh candidate distinct from oldAgent. -/
def newAgent : Agent := ⟨"New", "new@x.com", "LA", "CA"⟩

/-- A candidate with a malformed address (no at sign). -/
def badAgent : Agent := ⟨"Bob", "bademail", "NY", "NY"⟩

/-- A ledger state in which oldAgent's address is already marked sent. -/
def stOld : EmailState := ⟨["old@x.com"], [], 0, "d"⟩

/-- Ten distinct valid candidates for scenario B. -/
def agentsTen : List Agent :=
  [ ⟨"A1", "a1@x.com", "NY", "NY"⟩, ⟨"A2", "a2@x.com", "NY", "NY"⟩
  , ⟨"A3", "a3@x.com", "NY", "NY"⟩, ⟨"A4", "a4@x.com", "NY", "NY"⟩
  , ⟨"A5", "a5@x.com", "NY", "NY"⟩, ⟨"A6", "a6@x.com", "NY", "NY"⟩
  , ⟨"A7", "a7@x.com", "NY", "NY"⟩, ⟨"A8", "a8@x.com", "NY", "NY"⟩
  , ⟨"A9", "a9@x.com", "NY", "NY"⟩, ⟨"A10", "a10@x.com", "NY", "NY"⟩ ]

/-- Two records equal up to the case of the contact address: same normalized
composite key, different raw composite keys. -/
def dupA1 : Agent := ⟨"John", "A@x.com", "NY", "NY"⟩

/-- See dupA1. -/
def dupA2 : Agent := ⟨"John", "a@x.com", "NY", "NY"⟩

/-- Two records with distinct normalized composite keys but the same name. -/
def enB1 : Agent := ⟨"John", "john@x.com", "NY", "NY"⟩

/-- See enB1. -/
def enB2 : Agent := ⟨"John", "jon@y.com", "LA", "CA"⟩

/-- C7: on a quota check observing a date different from the stored one, the
counter is reset to 0 and the stored date updated before the limit
comparison (the returned flag compares 0, not the old counter, against the
limit); when the dates agree the check leaves the state unchanged; and the
increment for a successful send is applied on top of the post-check
counter. -/
theorem day_rollover (today : String) (cfg : EmailConfig) (s : EmailState) :
    (today ≠ s.lastResetDate →
      checkDailyLimit today cfg s
        = ({ s with dailyCount := 0, lastResetDate := today },
            decide (0 < cfg.maxPerDay))) ∧
    (today = s.lastResetDate →
      checkDailyLimit today cfg s = (s, decide (s.dailyCount < cfg.maxPerDay))) ∧
    (∀ (t : Transport) (a : Agent) (idx : Nat) (mid : String),
      (sendEmailToAgent t cfg today a idx s).1 = SendOutcome.success mid →
      (sendEmailToAgent t cfg today a idx s).2.1.dailyCount
        = (checkDailyLimit today cfg s).1.dailyCount + 1) := by
  refine ⟨fun h => checkDailyLimit_diff cfg h, fun h => checkDailyLimit_same cfg h, ?_⟩
  intro t a idx mid hs
  by_cases h1 : (checkDailyLimit today cfg s).2 = true
  · by_cases h2 : isValidEmail a.email = true
    · by_cases h3 : a.email ∈ (checkDailyLimit today cfg s).1.sentEmails
      · rw [sendEmailToAgent_already t idx h1 h2 h3] at hs
        simp at hs
      · by_cases h4 : a.email ∈ (checkDailyLimit today cfg s).1.failedEmails
        · rw [sendEmailToAgent_prevFailed t idx h1 h2 h3 h4] at hs
          simp at hs
        · cases hr : (sendEmailWithRetry t (agentMessage a idx) cfg 1).1 with
          | ok mid2 =>
              rw [sendEmailToAgent_sendOk h1 h2 h3 h4 hr]
          | error e0 =>
              rw [sendEmailToAgent_sendErr h1 h2 h3 h4 hr] at hs
              simp at hs
    · have h2' : isValidEmail a.email = false := by
        rw [← Bool.not_eq_true]; exact h2
      rw [sendEmailToAgent_invalid t idx h1 h2'] at hs
      simp at hs
  · have h1' : (checkDailyLimit today cfg s).2 = false := by
      rw [← Bool.not_eq_true]; exact h1
    rw [sendEmailToAgent_dailyLimit t a idx h1'] at hs
    simp at hs

/-- Witness for C7 at a concrete rollover input. -/
theorem day_rollover_witness :
    checkDailyLimit "b" cfgFive ⟨[], [], 3, "a"⟩
      = (⟨[], [], 0, "b"⟩, true) := by
  have h := (day_rollover "b" cfgFive ⟨[], [], 3, "a"⟩).1 (by decide)
  simpa using h

/-- C10: a falsy maxEmails argument (null or 0) makes the batch size limit
fall back to config.email.maxPerDay, so the run is identical to one with no
maxEmails argument and a zero-size batch cannot be requested through this
parameter. -/
theorem maxEmails_falsy_fallback (cfg : EmailConfig) (t : Transport)
    (today : String) (agents : List Agent) (s : EmailState) :
    jsOrLimit none cfg = cfg.maxPerDay ∧
    jsOrLimit (some 0) cfg = cfg.maxPerDay ∧
    sendBulkEmails t cfg today agents (some 0) s
      = sendBulkEmails t cfg today agents none s :=
  ⟨rfl, rfl, rfl⟩

/-- C5 counterexample: a malformed recipient identity produces no transport
call and no retry, but it is NOT recorded FAILED: the failed set of the
ledger stays empty (only a log line is emitted). -/
theorem invalid_email_cex :
    isValidEmail "bademail" = false ∧
    (sendEmailToAgent okTransport cfgFifty "d" badAgent 0 stFresh).1
      = SendOutcome.invalidEmail ∧
    (sendEmailToAgent okTransport cfgFifty "d" badAgent 0 stFresh).2.2 = [] ∧
    (sendEmailToAgent okTransport cfgFifty "d" badAgent 0 stFresh).2.1.failedEmails
      = [] ∧
    (sendEmailToAgent okTransport cfgFifty "d" badAgent 0 stFresh).2.1.sentEmails
      = [] := by decide

/-- C5 (amended): for a candidate whose identity fails validation (and whose
check passes the daily limit), the engine performs no transport call and no
retry, returns the "Invalid email" outcome, and leaves the ledger's sent and
failed sets unchanged — the candidate is NOT recorded FAILED. -/
theorem invalid_email_amended (t : Transport) (cfg : EmailConfig)
    (today : String) (a : Agent) (idx : Nat) (s : EmailState)
    (h1 : (checkDailyLimit today cfg s).2 = true)
    (h2 : isValidEmail a.email = false) :
    (sendEmailToAgent t cfg today a idx s).1 = SendOutcome.invalidEmail ∧
    (sendEmailToAgent t cfg today a idx s).2.2 = [] ∧
    (sendEmailToAgent t cfg today a idx s).2.1.sentEmails = s.sentEmails ∧
    (sendEmailToAgent t cfg today a idx s).2.1.failedEmails = s.failedEmails := by
  obtain ⟨cfs, cff, _⟩ := checkDailyLimit_fields today cfg s
  rw [sendEmailToAgent_invalid t idx h1 h2]
  exact ⟨rfl, rfl, cfs, cff⟩

/-- Witness for C5's amended theorem at a concrete malformed input. -/
theorem invalid_email_amended_witness :
    (sendEmailToAgent okTransport cfgFifty "e" badAgent 2 stFresh).2.2 = [] :=
  (invalid_email_amended okTransport cfgFifty "e" badAgent 2 stFresh
    (by decide) (by decide)).2.1

/-- C6: saving the ledger snapshot and loading it in a fresh instance
restores the sent set, failed set, daily count and stored reset date exactly
(for the duplicate-free sets the service maintains and a non-empty stored
date), and an identity marked sent before the restart is still skipped as
"Already sent" with no transport call after the restart. -/
theorem ledger_roundtrip (s : EmailState) (now fb : String)
    (h1 : s.sentEmails.Nodup) (h2 : s.failedEmails.Nodup)
    (h3 : s.lastResetDate ≠ "") :
    loadEmailLog (saveEmailLog s now) fb = s ∧
    (∀ (t : Transport) (cfg : EmailConfig) (today : String) (a : Agent) (idx : Nat),
      isValidEmail a.email = true →
      a.email ∈ s.sentEmails →
      (checkDailyLimit today cfg (loadEmailLog (saveEmailLog s now) fb)).2 = true →
      sendEmailToAgent t cfg today a idx (loadEmailLog (saveEmailLog s now) fb)
        = (SendOutcome.alreadySent,
           (checkDailyLimit today cfg (loadEmailLog (saveEmailLog s now) fb)).1,
           [])) := by
  have hrt : loadEmailLog (saveEmailLog s now) fb = s := by
    rcases s with ⟨se, fe, dc, dt⟩
    simp only [saveEmailLog, loadEmailLog]
    simp only at h1 h2 h3
    rw [jsSetOfList_nodup h1, jsSetOfList_nodup h2, if_neg h3]
  refine ⟨hrt, ?_⟩
  intro t cfg today a idx hv hmem hchk
  rw [hrt] at hchk ⊢
  have hmem' : a.email ∈ (checkDailyLimit today cfg s).1.sentEmails := by
    obtain ⟨cfs, _⟩ := checkDailyLimit_fields today cfg s
    rw [cfs]; exact hmem
  exact sendEmailToAgent_already t idx hchk hv hmem'

/-- Witness for C6 at a concrete persisted state. -/
theorem ledger_roundtrip_witness :
    loadEmailLog (saveEmailLog ⟨["a@b.c"], ["f@b.c"], 1, "d"⟩ "now") "fb"
      = ⟨["a@b.c"], ["f@b.c"], 1, "d"⟩ :=
  (ledger_roundtrip ⟨["a@b.c"], ["f@b.c"], 1, "d"⟩ "now" "fb"
    (by decide) (by decide) (by decide)).1

/-- C8 counterexample: the batch result of the quota-truncated scenario-B run
(10 fresh valid candidates, maxPerDay 5) is identical — batch result, final
ledger state and transport trace alike — to that of a complete run over only
the first 5 candidates under a quota of 50, so the returned result carries no
partial flag: nothing in it distinguishes the truncated run from a complete
one. -/
theorem scenarioB_cex :
    sendBulkEmails okTransport cfgFive "d" agentsTen none stFresh
      = sendBulkEmails okTransport cfgFifty "d" (agentsTen.take 5) none stFresh ∧
    (sendBulkEmails okTransport cfgFive "d" agentsTen none stFresh).1.total = 5 ∧
    agentsTen.length = 10 := by decide

/-- C8 (amended): with 10 valid not-yet-attempted candidates and maxPerDay 5
under an accepting transport, exactly the first 5 are sent, the remaining 5
are never touched (no ledger entry, no transport call), the final daily count
is 5 and the result is total 5 / successful 5 / failed 0; the batch result
carries no explicit partial flag — partiality is observable only by
comparing the result's total with the size of the submitted list. -/
theorem scenarioB_amended :
    (sendBulkEmails okTransport cfgFive "d" agentsTen none stFresh).1.total = 5 ∧
    (sendBulkEmails okTransport cfgFive "d" agentsTen none stFresh).1.successful = 5 ∧
    (sendBulkEmails okTransport cfgFive "d" agentsTen none stFresh).1.failed = 0 ∧
    (sendBulkEmails okTransport cfgFive "d" agentsTen none stFresh).1.results.map
        BatchEntry.agent = agentsTen.take 5 ∧
    (sendBulkEmails okTransport cfgFive "d" agentsTen none stFresh).2.1.sentEmails
      = (agentsTen.take 5).map Agent.email ∧
    (sendBulkEmails okTransport cfgFive "d" agentsTen none stFresh).2.1.failedEmails
      = [] ∧
    (sendBulkEmails okTransport cfgFive "d" agentsTen none stFresh).2.1.dailyCount
      = 5 ∧
    ((agentsTen.drop 5).all fun a =>
      !((sendBulkEmails okTransport cfgFive "d" agentsTen none
          stFresh).2.1.sentEmails.contains a.email) &&
      !((sendBulkEmails okTransport cfgFive "d" agentsTen none
          stFresh).2.1.failedEmails.contains a.email) &&
      (callsTo a.email
        (sendBulkEmails okTransport cfgFive "d" agentsTen none stFresh).2.2 == 0))
      = true ∧
    (agentsTen.all fun a => isValidEmail a.email) = true := by decide

/-- C9 counterexample: the dedup key is not normalized — two records whose
normalized composite keys coincide (addresses differing only in case) are
BOTH kept by the puppeteer orchestrator's removeDuplicates; and the other
orchestrator variant drops a record whose normalized composite key is
distinct (same name, different address), so records with distinct keys are
not all kept. -/
theorem dedup_cex :
    normalizedDedupKey dupA1 = normalizedDedupKey dupA2 ∧
    dupA1 ≠ dupA2 ∧
    removeDuplicates [dupA1, dupA2] = [dupA1, dupA2] ∧
    normalizedDedupKey enB1 ≠ normalizedDedupKey enB2 ∧
    removeDuplicatesByEmailName [enB1, enB2] = [enB1] := by decide

/-- C9 (amended): the puppeteer orchestrator's removeDuplicates deduplicates
on the RAW composite key email-name-city (no normalization): the output keys
are pairwise distinct, a key appears in the output exactly when it appears in
the input, the output is an order-preserving sublist of the input, and each
kept record is the first occurrence of its raw key. -/
theorem dedup_amended (agents : List Agent) :
    ((removeDuplicates agents).map dedupKey).Nodup ∧
    (∀ k, k ∈ agents.map dedupKey ↔ k ∈ (removeDuplicates agents).map dedupKey) ∧
    (removeDuplicates agents).Sublist agents ∧
    (∀ b ∈ removeDuplicates agents, ∃ i, ∃ h : i < agents.length,
        agents.get ⟨i, h⟩ = b ∧
        ∀ j (hj : j < i),
          dedupKey (agents.get ⟨j, Nat.lt_trans hj h⟩) ≠ dedupKey b) := by
  refine ⟨removeDupGo_keys_nodup agents [], ?_, removeDupGo_sublist agents [], ?_⟩
  · intro k
    constructor
    · intro hk
      exact (removeDupGo_key_mem agents [] k).mpr ⟨hk, List.not_mem_nil k⟩
    · intro hk
      exact ((removeDupGo_key_mem agents [] k).mp hk).1
  · intro b hb
    exact removeDupGo_first agents [] b hb

/-- Witness for C9's amended theorem on a concrete duplicate-bearing list. -/
theorem dedup_amended_witness :
    dupA2 ∈ removeDuplicates [dupA1, dupA2, dupA1] ∧
    (∃ i, ∃ h : i < ([dupA1, dupA2, dupA1] : List Agent).length,
      ([dupA1, dupA2, dupA1] : List Agent).get ⟨i, h⟩ = dupA2 ∧
      ∀ j (hj : j < i),
        dedupKey (([dupA1, dupA2, dupA1] : List Agent).get ⟨j, Nat.lt_trans hj h⟩)
          ≠ dedupKey dupA2) :=
  ⟨by decide, (dedup_amended [dupA1, dupA2, dupA1]).2.2.2 dupA2 (by decide)⟩

/-- maxPerDay 2, retryAttempts 3. -/
def cfgTwo : EmailConfig := ⟨2, 3⟩

/-- C1: starting from a state within quota, a batch run ends with
dailyCount ≤ maxPerDay; the processed candidates form a prefix of the
truncated input, and the loop stops before the end of that list only with the
quota reached; every ledger entry created (sent or failed) and every
transport call belongs to a processed candidate — remaining candidates stay
untouched (PENDING), with no ledger entry and no delivery attempt. -/
theorem quota_invariant (t : Transport) (cfg : EmailConfig) (today : String)
    (agents : List Agent) (maxEmails : Option Nat) (s : EmailState)
    (h : s.dailyCount ≤ cfg.maxPerDay) :
    (sendBulkEmails t cfg today agents maxEmails s).2.1.dailyCount ≤ cfg.maxPerDay ∧
    (sendBulkEmails t cfg today agents maxEmails s).1.results.map BatchEntry.agent
      = (agents.take (jsOrLimit maxEmails cfg)).take
          (sendBulkEmails t cfg today agents maxEmails s).1.results.length ∧
    ((sendBulkEmails t cfg today agents maxEmails s).1.results.length
        < (agents.take (jsOrLimit maxEmails cfg)).length →
      cfg.maxPerDay ≤ (sendBulkEmails t cfg today agents maxEmails s).2.1.dailyCount) ∧
    (∀ e, e ∈ (sendBulkEmails t cfg today agents maxEmails s).2.1.sentEmails →
      e ∈ s.sentEmails ∨
        e ∈ (sendBulkEmails t cfg today agents maxEmails s).1.results.map
              (fun p => p.agent.email)) ∧
    (∀ e, e ∈ (sendBulkEmails t cfg today agents maxEmails s).2.1.failedEmails →
      e ∈ s.failedEmails ∨
        e ∈ (sendBulkEmails t cfg today agents maxEmails s).1.results.map
              (fun p => p.agent.email)) ∧
    (∀ ev ∈ (sendBulkEmails t cfg today agents maxEmails s).2.2,
      ev.recipient ∈ (sendBulkEmails t cfg today agents maxEmails s).1.results.map
          (fun p => p.agent.email)) := by
  rw [sendBulkEmails_results, sendBulkEmails_state, sendBulkEmails_trace]
  obtain ⟨p1, _, p3⟩ :=
    bulkLoop_prefix t cfg today (agents.take (jsOrLimit maxEmails cfg)) 0 s
  obtain ⟨t1, _, t3, _, t5, t6⟩ :=
    bulkLoop_touch t cfg today (agents.take (jsOrLimit maxEmails cfg)) 0 s
  refine ⟨?_, p1, p3, t1, t3, fun ev hev => (t5 ev hev).1⟩
  rcases t6 with hh | hh
  · exact hh
  · rw [hh]; exact h

/-- Witness for C1 at a concrete run (3 of 10 candidates fit under quota 2). -/
theorem quota_invariant_witness :
    stFresh.dailyCount ≤ cfgTwo.maxPerDay ∧
    (sendBulkEmails okTransport cfgTwo "d" agentsTen none stFresh).2.1.dailyCount
      ≤ cfgTwo.maxPerDay :=
  ⟨by decide,
   (quota_invariant okTransport cfgTwo "d" agentsTen none stFresh (by decide)).1⟩

/-- C2 counterexample: with maxPerDay 1, the first run sends the only
candidate and exhausts the quota; in a second run over the resulting ledger
that candidate — although previously marked sent — is reported with the
"Daily limit reached" reason (the quota check precedes the already-sent
check), not "Already sent". -/
theorem idempotence_cex :
    annAgent.email ∈ (sendBulkEmails okTransport cfgOne "d" [annAgent] none
        stFresh).2.1.sentEmails ∧
    (sendBulkEmails okTransport cfgOne "d" [annAgent] none
        (sendBulkEmails okTransport cfgOne "d" [annAgent] none stFresh).2.1).1.results
      = [⟨annAgent, SendOutcome.dailyLimit, 0⟩] ∧
    SendOutcome.dailyLimit ≠ SendOutcome.alreadySent := by decide

/-- C2 (amended): running the batch twice sends each recipient identity at
most once in total — an identity marked sent after the first run receives no
transport call in the second, and across both traces at most one accepted
send exists per identity; and provided the first run ends strictly below the
quota with its stored date equal to the (unchanged) current date, every
second-run candidate that was marked sent — and is valid — is skipped with
the "Already sent" reason. -/
theorem idempotence_amended (t t2 : Transport) (cfg : EmailConfig)
    (today : String) (agents : List Agent) (maxEmails : Option Nat)
    (s0 : EmailState) :
    (∀ e, e ∈ (sendBulkEmails t cfg today agents maxEmails s0).2.1.sentEmails →
      callsTo e (sendBulkEmails t2 cfg today agents maxEmails
          (sendBulkEmails t cfg today agents maxEmails s0).2.1).2.2 = 0) ∧
    (∀ e, successCountE e
        ((sendBulkEmails t cfg today agents maxEmails s0).2.2 ++
         (sendBulkEmails t2 cfg today agents maxEmails
            (sendBulkEmails t cfg today agents maxEmails s0).2.1).2.2) ≤ 1) ∧
    ((sendBulkEmails t cfg today agents maxEmails s0).2.1.dailyCount
        < cfg.maxPerDay →
     (sendBulkEmails t cfg today agents maxEmails s0).2.1.lastResetDate = today →
     ∀ p ∈ (sendBulkEmails t2 cfg today agents maxEmails
         (sendBulkEmails t cfg today agents maxEmails s0).2.1).1.results,
       isValidEmail p.agent.email = true →
       p.agent.email ∈ (sendBulkEmails t cfg today agents maxEmails s0).2.1.sentEmails →
       p.outcome = SendOutcome.alreadySent) := by
  simp only [sendBulkEmails_results, sendBulkEmails_state, sendBulkEmails_trace]
  obtain ⟨_, _, _, _, r2t5, _⟩ :=
    bulkLoop_touch t2 cfg today (agents.take (jsOrLimit maxEmails cfg)) 0
      (bulkLoop t cfg today (agents.take (jsOrLimit maxEmails cfg)) 0 s0).2.1
  refine ⟨?_, ?_, ?_⟩
  · intro e he
    apply callsTo_eq_zero_of
    intro ev hev hc
    rw [← hc] at he
    exact (r2t5 ev hev).2.1 he
  · intro e
    rw [successCountE_append]
    obtain ⟨s1c1, s1c2⟩ :=
      bulkLoop_success t cfg today (agents.take (jsOrLimit maxEmails cfg)) 0 s0 e
    obtain ⟨s2c1, _⟩ :=
      bulkLoop_success t2 cfg today (agents.take (jsOrLimit maxEmails cfg)) 0
        (bulkLoop t cfg today (agents.take (jsOrLimit maxEmails cfg)) 0 s0).2.1 e
    by_cases hc : 1 ≤ successCountE e
        (bulkLoop t cfg today (agents.take (jsOrLimit maxEmails cfg)) 0 s0).2.2
    · have hmem := s1c2 hc
      have h0 : successCountE e
          (bulkLoop t2 cfg today (agents.take (jsOrLimit maxEmails cfg)) 0
            (bulkLoop t cfg today (agents.take (jsOrLimit maxEmails cfg)) 0
              s0).2.1).2.2 = 0 := by
        apply successCountE_eq_zero_of
        intro ev hev hc2
        rw [← hc2] at hmem
        exact (r2t5 ev hev).2.1 hmem
      omega
    · have h0 : successCountE e
          (bulkLoop t cfg today (agents.take (jsOrLimit maxEmails cfg)) 0
            s0).2.2 = 0 := by omega
      omega
  · intro hcnt hdate p hp hv hmem
    exact bulkLoop_skip t2 cfg today (agents.take (jsOrLimit maxEmails cfg)) 0
      (bulkLoop t cfg today (agents.take (jsOrLimit maxEmails cfg)) 0 s0).2.1
      hcnt hdate p hp hv hmem

/-- Witness for C2's amended theorem: the identity sent in the first concrete
run receives zero transport calls in the second. -/
theorem idempotence_amended_witness :
    callsTo "ann@x.com"
      (sendBulkEmails okTransport cfgTwo "d" [annAgent] none
        (sendBulkEmails okTransport cfgTwo "d" [annAgent] none stFresh).2.1).2.2
      = 0 :=
  (idempotence_amended okTransport okTransport cfgTwo "d" [annAgent] none
    stFresh).1 "ann@x.com" (by decide)

/-- C3: against a transport whose every attempt raises, the retried send
performs exactly retryAttempts transport calls (all failed, all to the
recipient) and returns the last attempt's error; a fresh valid candidate is
then recorded in the failed set with that last error as its outcome, and any
later call for that recipient is skipped as previously failed with zero
transport calls. -/
theorem retry_bound (cfg : EmailConfig) (errf : Nat → String) (m : Message)
    (h : 1 ≤ cfg.retryAttempts) :
    (sendEmailWithRetry (alwaysFailTransport errf) m cfg 1).1
        = Except.error (errf cfg.retryAttempts) ∧
    (sendEmailWithRetry (alwaysFailTransport errf) m cfg 1).2.length
        = cfg.retryAttempts ∧
    (∀ ev ∈ (sendEmailWithRetry (alwaysFailTransport errf) m cfg 1).2,
      ev.ok = false ∧ ev.recipient = m.recipient) ∧
    (∀ (t2 : Transport) (today : String) (a : Agent) (idx : Nat) (s : EmailState),
      isValidEmail a.email = true →
      a.email ∉ (checkDailyLimit today cfg s).1.sentEmails →
      a.email ∉ (checkDailyLimit today cfg s).1.failedEmails →
      (checkDailyLimit today cfg s).2 = true →
      (sendEmailToAgent (alwaysFailTransport errf) cfg today a idx s).1
          = SendOutcome.sendFailed (errf cfg.retryAttempts) ∧
      a.email ∈ (sendEmailToAgent (alwaysFailTransport errf) cfg today a idx
          s).2.1.failedEmails ∧
      (sendEmailToAgent (alwaysFailTransport errf) cfg today a idx s).2.2.length
          = cfg.retryAttempts ∧
      (∀ idx2 : Nat,
        sendEmailToAgent t2 cfg today a idx2
            (sendEmailToAgent (alwaysFailTransport errf) cfg today a idx s).2.1
          = (SendOutcome.previouslyFailed,
             (sendEmailToAgent (alwaysFailTransport errf) cfg today a idx s).2.1,
             []))) := by
  obtain ⟨f1, f2, f3⟩ := retryGo_always_fail errf m (cfg.retryAttempts - 1) 1
  have hfa : 1 + (cfg.retryAttempts - 1) = cfg.retryAttempts := by omega
  refine ⟨?_, ?_, ?_, ?_⟩
  · unfold sendEmailWithRetry
    rw [f1, hfa]
  · unfold sendEmailWithRetry
    rw [f2]
    omega
  · intro ev hev
    unfold sendEmailWithRetry at hev
    exact f3 ev hev
  · intro t2 today a idx s hv hns hnf hchk
    obtain ⟨g1, g2, _⟩ :=
      retryGo_always_fail errf (agentMessage a idx) (cfg.retryAttempts - 1) 1
    have hr : (sendEmailWithRetry (alwaysFailTransport errf)
        (agentMessage a idx) cfg 1).1 = Except.error (errf cfg.retryAttempts) := by
      unfold sendEmailWithRetry
      rw [g1, hfa]
    rw [sendEmailToAgent_sendErr hchk hv hns hnf hr]
    obtain ⟨_, _, _, _, cfiff⟩ := checkDailyLimit_fields today cfg s
    refine ⟨rfl, by simp, ?_, ?_⟩
    · show (sendEmailWithRetry (alwaysFailTransport errf)
          (agentMessage a idx) cfg 1).2.length = cfg.retryAttempts
      unfold sendEmailWithRetry
      rw [g2]
      omega
    · intro idx2
      have hd : ({ (checkDailyLimit today cfg s).1 with
          failedEmails := (checkDailyLimit today cfg s).1.failedEmails ++
            [a.email] } : EmailState).lastResetDate = today :=
        checkDailyLimit_date today cfg s
      have hc' := checkDailyLimit_same cfg hd.symm
      have hcount : ({ (checkDailyLimit today cfg s).1 with
          failedEmails := (checkDailyLimit today cfg s).1.failedEmails ++
            [a.email] } : EmailState).dailyCount < cfg.maxPerDay := by
        show (checkDailyLimit today cfg s).1.dailyCount < cfg.maxPerDay
        exact cfiff.mp hchk
      have hc2' : (checkDailyLimit today cfg ({ (checkDailyLimit today cfg s).1 with
          failedEmails := (checkDailyLimit today cfg s).1.failedEmails ++
            [a.email] } : EmailState)).2 = true := by
        rw [hc']
        simpa using hcount
      have hc1' : (checkDailyLimit today cfg ({ (checkDailyLimit today cfg s).1 with
          failedEmails := (checkDailyLimit today cfg s).1.failedEmails ++
            [a.email] } : EmailState)).1
          = ({ (checkDailyLimit today cfg s).1 with
              failedEmails := (checkDailyLimit today cfg s).1.failedEmails ++
                [a.email] } : EmailState) := by
        rw [hc']
      have hns' : a.email ∉ (checkDailyLimit today cfg
          ({ (checkDailyLimit today cfg s).1 with
            failedEmails := (checkDailyLimit today cfg s).1.failedEmails ++
              [a.email] } : EmailState)).1.sentEmails := by
        rw [hc1']
        exact hns
      have hnf' : a.email ∈ (checkDailyLimit today cfg
          ({ (checkDailyLimit today cfg s).1 with
            failedEmails := (checkDailyLimit today cfg s).1.failedEmails ++
              [a.email] } : EmailState)).1.failedEmails := by
        rw [hc1']
        simp
      rw [sendEmailToAgent_prevFailed t2 idx2 hc2' hv hns' hnf', hc1']

/-- Witness for C3 at a concrete always-failing transport. -/
theorem retry_bound_witness :
    (1 : Nat) ≤ cfgFifty.retryAttempts ∧
    (sendEmailWithRetry (alwaysFailTransport fun _ => "boom")
        ⟨"a@b.c", "s", "t"⟩ cfgFifty 1).2.length = cfgFifty.retryAttempts :=
  ⟨by decide,
   (retry_bound cfgFifty (fun _ => "boom") ⟨"a@b.c", "s", "t"⟩ (by decide)).2.1⟩

/-- C4 counterexample: with a first candidate that is skipped (already sent)
and a second fresh candidate, the single transport call of the batch is made
with subject variant 1, not variant 0: the rotation index advanced on the
skipped candidate, contradicting the claim that it advances only for
attempted candidates. -/
theorem subject_rotation_cex :
    (sendBulkEmails okTransport cfgFifty "d" [oldAgent, newAgent] none
        stOld).1.results
      = [⟨oldAgent, SendOutcome.alreadySent, 0⟩,
         ⟨newAgent, SendOutcome.success "id", 1⟩] ∧
    (sendBulkEmails okTransport cfgFifty "d" [oldAgent, newAgent] none stOld).2.2
      = [⟨"new@x.com", generateSubject 1, 1, true⟩] ∧
    generateSubject 1 ≠ generateSubject 0 := by decide

/-- C4 (amended): the subject rotation index is a round-robin modulo the
5-element variant set, but it advances once per PROCESSED candidate — skipped
candidates included: the i-th processed candidate is always passed index
i mod 5, and every transport call for a candidate carries the subject of the
index it was passed. -/
theorem subject_rotation_amended (t : Transport) (cfg : EmailConfig)
    (today : String) (agents : List Agent) (maxEmails : Option Nat)
    (s : EmailState) :
    (sendBulkEmails t cfg today agents maxEmails s).1.results.map
        BatchEntry.subjectIndex
      = (List.range
          (sendBulkEmails t cfg today agents maxEmails s).1.results.length).map
          (fun i => i % 5) ∧
    (∀ n, generateSubject n = subjects.getD (n % 5) "") ∧
    (∀ (a : Agent) (idx : Nat) (s2 : EmailState),
      ∀ ev ∈ (sendEmailToAgent t cfg today a idx s2).2.2,
        ev.subject = generateSubject idx) := by
  refine ⟨?_, fun n => rfl, ?_⟩
  · rw [sendBulkEmails_results]
    rw [bulkLoop_idx t cfg today (agents.take (jsOrLimit maxEmails cfg)) 0 s
      (by omega)]
    congr 1
    funext i
    simp
  · intro a idx s2 ev hev
    exact ((sendEmailToAgent_spec t cfg today a idx s2).2.2.2.2.2 ev hev).2.1

/-- Witness for C4's amended theorem at the concrete skip-then-attempt run. -/
theorem subject_rotation_amended_witness :
    (sendBulkEmails okTransport cfgFifty "d" [oldAgent, newAgent] none
        stOld).1.results.map BatchEntry.subjectIndex = [0, 1] :=
  ((subject_rotation_amended okTransport cfgFifty "d" [oldAgent, newAgent]
    none stOld).1).trans (by decide)

end Scraper
